import Mathlib

/-!
Shallow embedding of the RAG core of `server_py/app/services/rag_processor.py`
and of the route handlers in `server_py/app/api/routes/rag.py`, together with
proofs of the specified properties.

Python machine-level conventions used throughout:
* Python strings are modelled by Lean `String` / `List Char`.
* Python floats produced by the embedding model are modelled by `ℚ`
  (exact arithmetic; FAISS flat L2 distances are modelled by the squared
  Euclidean distance, which is the quantity FAISS actually returns).
* Python exceptions are modelled by `Except String`; a `try/except` block
  becomes a `match` on the `Except` value.
* A Python dict literal with a fixed key set is modelled by a structure whose
  optional fields record whether the corresponding key is present
  (`none` = key absent, so that `dict.get(key)` returns `None`).
-/

namespace RAG


/-! ## Text normalization (`RAGProcessor.clean_text`)

The Python code is
```
text = re.sub(r'\r\n', ' ', text)
text = re.sub(r'\s+', ' ', text)
return text.strip()
```
`isPySpace` models the whitespace class of Python's regex `\s` and of
`str.strip` (the ASCII part; both operations use the same class, so the
model is uniform). -/

def isPySpace (c : Char) : Bool :=
  c = ' ' || c = '\t' || c = '\n' || c = '\r' || c = '\x0b' || c = '\x0c'

/-- Left-to-right non-overlapping replacement of the two-character sequence
`"\r\n"` by a single space, as `re.sub(r'\r\n', ' ', text)` performs. -/
def replaceCRLF : List Char → List Char
  | [] => []
  | [c] => [c]
  | c₁ :: c₂ :: rest =>
    if c₁ = '\r' ∧ c₂ = '\n' then ' ' :: replaceCRLF rest
    else c₁ :: replaceCRLF (c₂ :: rest)

/-- Replacement of each maximal run of whitespace by one space, as
`re.sub(r'\s+', ' ', text)` performs. -/
def collapseWS : List Char → List Char
  | [] => []
  | c :: rest =>
    if isPySpace c then ' ' :: collapseWS (rest.dropWhile isPySpace)
    else c :: collapseWS rest
termination_by l => l.length
decreasing_by
  · simpa using Nat.lt_succ_of_le (List.dropWhile_sublist isPySpace).length_le
  · simp

/-- `str.strip()`: drop leading and trailing whitespace. -/
def stripWS (l : List Char) : List Char :=
  (((l.dropWhile isPySpace).reverse.dropWhile isPySpace)).reverse

/-- `RAGProcessor.clean_text`. -/
def clean_text (s : String) : String :=
  ⟨stripWS (collapseWS (replaceCRLF s.data))⟩

/-- Two adjacent characters are not both whitespace. -/
def noTwoWS (a b : Char) : Prop := ¬(isPySpace a = true ∧ isPySpace b = true)

/-! ## Embedding provider (`E5MistralEmbeddings`)

The sentence-transformer model is abstracted as a function `enc : String → Vec`
mapping one text to its (already normalized) vector; `encode` on a batch
returns one vector per input text in input order, i.e. `batch.map enc`.
Vectors are lists of rationals. -/

/-- A vector of floats. -/
abbrev Vec : Type := List ℚ

/-- The contiguous slices `texts[i:i+n]` for `i = 0, n, 2n, …`, as produced by
`for i in range(0, len(texts), n): batch = texts[i:i+n]`. -/
def chunksOf (n : Nat) : List α → List (List α)
  | [] => []
  | a :: rest =>
    if h : n = 0 then [a :: rest]
    else (a :: rest).take n :: chunksOf n ((a :: rest).drop n)
termination_by l => l.length
decreasing_by
  simp only [List.length_drop, List.length_cons]
  omega

/-- `E5MistralEmbeddings.embed_documents`: process the texts in sequential
batches of size 8, appending each batch's vectors to the accumulator. -/
def embed_documents (enc : String → Vec) (texts : List String) : List Vec :=
  (chunksOf 8 texts).foldl (fun acc batch => acc ++ batch.map enc) []

/-- The fixed task description `SEARCH_INSTRUCTION`. -/
def SEARCH_INSTRUCTION : String :=
  "Tìm kiếm các thông tin pháp luật về giao thông đường bộ"

/-- The instruction-formatted query text built by `embed_query`. -/
def instructedQuery (text : String) : String :=
  "Instruct: " ++ SEARCH_INSTRUCTION ++ "\nQuery: " ++ text

/-- `E5MistralEmbeddings.embed_query`: encode the instruction-formatted query. -/
def embed_query (enc : String → Vec) (text : String) : Vec :=
  enc (instructedQuery text)

/-! ## Corpus data model and loader (`RAGProcessor.load_and_chunk_data`)

A corpus JSON file is `{"chapters": [{"chapter_title": …, "articles":
[{"article_title": …, "content": [...]}, …]}, …]}`; `dict.get` defaults
(`""`, `[]`) are absorbed into total fields.  The langchain
`RecursiveCharacterTextSplitter` is an external collaborator and is
abstracted as a function `split : String → List String`. -/

structure Article where
  article_title : String
  content : List String
deriving DecidableEq

structure Chapter where
  chapter_title : String
  articles : List Article
deriving DecidableEq

structure LawFile where
  chapters : List Chapter
deriving DecidableEq

/-- A langchain `Document`: `page_content` plus the metadata keys written by
`load_and_chunk_data` (`chunk`/`total_chunks` are present only on split
sub-chunks). -/
structure LawChunk where
  page_content : String
  source_file : String
  chapter_title : String
  article_title : String
  source : String
  chunk : Option Nat := none
  total_chunks : Option Nat := none
deriving DecidableEq

/-- `str.strip()` on a `String`. -/
def stripString (s : String) : String := ⟨stripWS s.data⟩

/-- The article text accumulated by
`for content_item in article.get("content", []): content += clean_text(content_item) + " "`. -/
def articleText (ar : Article) : String :=
  ar.content.foldl (fun acc ci => acc ++ clean_text ci ++ " ") ""

/-- One article's `Document`, or `none` when the accumulated content is empty
after stripping (`if not content.strip(): continue`). -/
def articleDoc (sourceName chapterTitle : String) (ar : Article) : Option LawChunk :=
  let content := articleText ar
  if stripString content = "" then none
  else some
    { page_content := stripString content
      source_file := sourceName
      chapter_title := chapterTitle
      article_title := ar.article_title
      source := sourceName ++ ": " ++ chapterTitle ++ ", " ++ ar.article_title }

/-- The per-file `file_documents` list (both nested loops). -/
def fileDocuments (sourceName : String) (lf : LawFile) : List LawChunk :=
  lf.chapters.flatMap fun ch => ch.articles.filterMap (articleDoc sourceName ch.chapter_title)

/-- Chunking of one document: split only when longer than 400 characters,
attaching `chunk = i+1` and `total_chunks`. -/
def chunkDoc (split : String → List String) (d : LawChunk) : List LawChunk :=
  if d.page_content.length > 400 then
    let cs := split d.page_content
    cs.enum.map fun p =>
      { d with page_content := p.2, chunk := some (p.1 + 1), total_chunks := some cs.length }
  else [d]

/-- Everything inside the per-file `try`: parse, build documents, chunk. -/
def processFile (split : String → List String) (sourceName : String) (lf : LawFile) :
    List LawChunk :=
  (fileDocuments sourceName lf).flatMap (chunkDoc split)

/-- A file in the corpus directory: its source name and either its parsed
content or the exception its processing raised. -/
abbrev CorpusFile : Type := String × Except String LawFile

/-- `RAGProcessor.load_and_chunk_data`: iterate over the directory's files,
extending `documents` per file and skipping (`continue`) any file whose
processing raised. -/
def load_and_chunk_data (split : String → List String) (files : List CorpusFile) :
    List LawChunk :=
  files.foldl (fun acc f =>
    match f.2 with
    | Except.error _ => acc
    | Except.ok law => acc ++ processFile split f.1 law) []

/-- A file's contribution to the loaded corpus. -/
def fileContribution (split : String → List String) (f : CorpusFile) : List LawChunk :=
  match f.2 with
  | Except.error _ => []
  | Except.ok law => processFile split f.1 law

/-! ## Vector index (`build_vectorstore` / `save_vectorstore` / `load_vectorstore`)

A langchain FAISS store over `N` documents is its list of (vector, document)
pairs in insertion order.  `from_documents` embeds the texts through
`embed_documents` and pairs them with the documents; `merge_from` concatenates
two stores; `save_local`/`load_local` serialize and restore the flat vector
array and the docstore. -/

/-- `LangchainFAISS.from_documents`. -/
def fromDocuments (enc : String → Vec) (docs : List LawChunk) : List (Vec × LawChunk) :=
  (embed_documents enc (docs.map fun d => d.page_content)).zip docs

/-- `RAGProcessor.build_vectorstore`: embed in batches of 50 and fold the
per-batch stores together with `merge_from` (an empty document list produces
no index, modelled as the empty store). -/
def build_vectorstore (enc : String → Vec) (docs : List LawChunk) :
    List (Vec × LawChunk) :=
  ((chunksOf 50 docs).map (fromDocuments enc)).foldl (fun a b => a ++ b) []

/-- The serialized artifact written by `save_local`: the flat array of vectors
plus the docstore, each in index order. -/
structure SavedArtifact where
  vectors : List Vec
  docstore : List LawChunk
deriving DecidableEq

/-- `RAGProcessor.save_vectorstore` (via `FAISS.save_local`). -/
def save_vectorstore (idx : List (Vec × LawChunk)) : SavedArtifact :=
  ⟨idx.map Prod.fst, idx.map Prod.snd⟩

/-- `RAGProcessor.load_vectorstore` (via `FAISS.load_local`): re-pair each
stored vector with its docstore entry. -/
def load_vectorstore (a : SavedArtifact) : List (Vec × LawChunk) :=
  a.vectors.zip a.docstore

/-! ## Retriever (`RAGProcessor.search`) -/

/-- Squared Euclidean distance, the score returned by a FAISS `IndexFlatL2`. -/
def sqDist (u v : Vec) : ℚ := (List.zipWith (fun a b => (a - b) ^ 2) u v).sum

/-- Comparison of index entries by distance to the query vector. -/
def distLe (qv : Vec) (a b : Vec × LawChunk) : Prop := sqDist qv a.1 ≤ sqDist qv b.1

instance (qv : Vec) : DecidableRel (distLe qv) :=
  fun a b => inferInstanceAs (Decidable (_ ≤ _))

instance (qv : Vec) : IsTotal (Vec × LawChunk) (distLe qv) :=
  ⟨fun a b => le_total _ _⟩

instance (qv : Vec) : IsTrans (Vec × LawChunk) (distLe qv) :=
  ⟨fun _ _ _ => le_trans⟩

/-- The `k` index entries nearest to the query, in ascending distance order:
the FAISS top-k operator of `retriever.invoke` under `search_kwargs={"k": k}`. -/
def searchRanked (enc : String → Vec) (entries : List (Vec × LawChunk))
    (query : String) (k : Nat) : List (Vec × LawChunk) :=
  (List.insertionSort (distLe (embed_query enc query)) entries).take k

/-- One result dict built by `RAGProcessor.search` (keys `chapter_title`,
`article_title`, `content`, `source`; no `distance` key). -/
structure SourceDict where
  chapter_title : String
  article_title : String
  content : String
  source : Option String := none
  distance : Option ℚ := none
deriving DecidableEq

/-- `RAGProcessor.search` over a loaded index. -/
def search (enc : String → Vec) (entries : List (Vec × LawChunk))
    (query : String) (k : Nat) : List SourceDict :=
  (searchRanked enc entries query k).map fun e =>
    { chapter_title := e.2.chapter_title
      article_title := e.2.article_title
      content := e.2.page_content
      source := some e.2.source }

/-! ## Answer synthesizer (`RAGProcessor.generate_answer`)

The external effects of one `generate_answer` call are collected in `GenEnv`:
the outcome of the `RetrievalQA` chain invocation (primary path), the loaded
index and query encoder used by the direct `self.search` of the fallback path
(`searchFails` records an exception inside `search`, which its own handler
turns into `[]`), and the outcome of the direct Ollama HTTP call (`exn` = a
raised transport error, otherwise the status code and the parse of
`response.json().get("response", "")`). -/

/-- The fixed apology answer. -/
def apologyMsg : String := "Xin lỗi, có lỗi xảy ra khi xử lý câu hỏi của bạn."

/-- The fixed no-relevant-information answer. -/
def noInfoMsg : String := "Tôi không tìm thấy thông tin liên quan trong luật giao thông."

instance {ε α : Type} [DecidableEq ε] [DecidableEq α] : DecidableEq (Except ε α) := fun a b =>
  match a, b with
  | Except.ok x, Except.ok y =>
    if h : x = y then isTrue (by rw [h]) else isFalse fun hc => h (Except.ok.inj hc)
  | Except.error x, Except.error y =>
    if h : x = y then isTrue (by rw [h]) else isFalse fun hc => h (Except.error.inj hc)
  | Except.ok _, Except.error _ => isFalse fun hc => Except.noConfusion hc
  | Except.error _, Except.ok _ => isFalse fun hc => Except.noConfusion hc

inductive OllamaOutcome where
  | exn (msg : String)
  | resp (status : Nat) (jsonResponse : Except String String)
deriving DecidableEq

structure GenEnv where
  chain : Except String (String × List LawChunk)
  enc : String → Vec
  entries : List (Vec × LawChunk)
  topK : Nat
  searchFails : Bool
  ollama : OllamaOutcome

/-- Outcome of one `generate_answer` call: the returned 2-tuple plus whether a
language-model completion request was issued. -/
structure GenResult where
  answer : String
  sources : List SourceDict
  llmCalled : Bool
deriving DecidableEq

/-- The source dict built on the primary path (keys `chapter_title`,
`article_title`, `content`; neither `source` nor `distance`). -/
def docToSource (d : LawChunk) : SourceDict :=
  { chapter_title := d.chapter_title
    article_title := d.article_title
    content := d.page_content }

/-- What `self.search(query)` returns inside the fallback path: `[]` when an
exception occurred inside `search` (its own handler), else the top-k results. -/
def searchResultsOf (env : GenEnv) (query : String) : List SourceDict :=
  if env.searchFails then [] else search env.enc env.entries query env.topK

/-- The fallback (manual) path, entered after the chain failed.  An
`Except.error` is an exception escaping the path into the outermost handler. -/
def fallbackPath (env : GenEnv) (query : String) : Except String GenResult :=
  let res := searchResultsOf env query
  if res.isEmpty then Except.ok ⟨noInfoMsg, [], false⟩
  else
    match env.ollama with
    | OllamaOutcome.exn m => Except.error m
    | OllamaOutcome.resp status jsonResponse =>
      if status ≠ 200 then Except.ok ⟨apologyMsg, [], true⟩
      else
        match jsonResponse with
        | Except.error m => Except.error m
        | Except.ok answer => Except.ok ⟨answer, res, true⟩

/-- The body of `generate_answer` under the outermost `try`: the primary
chain path with its own handler falling back to the manual path. -/
def generate_answer_body (env : GenEnv) (query : String) : Except String GenResult :=
  match env.chain with
  | Except.ok (answer, docs) => Except.ok ⟨answer, docs.map docToSource, true⟩
  | Except.error _ => fallbackPath env query

/-- `RAGProcessor.generate_answer`: the outermost handler converts any escaped
exception into the apology answer with empty sources. -/
def generate_answer (env : GenEnv) (query : String) : GenResult :=
  match generate_answer_body env query with
  | Except.ok r => r
  | Except.error _ => ⟨apologyMsg, [], true⟩

/-! ## The `/rag/chat` route's source formatting (`rag.py`) -/

/-- The `RAGSourceItem` schema object built by the `/rag/chat` route with
`distance=src.get("distance")`. -/
structure RAGSourceItem where
  chapter_title : String
  article_title : String
  content : String
  distance : Option ℚ
deriving DecidableEq

/-- The route's `formatted_sources` comprehension. -/
def formatSources (srcs : List SourceDict) : List RAGSourceItem :=
  srcs.map fun s => ⟨s.chapter_title, s.article_title, s.content, s.distance⟩

/-! ## Index rebuild (`force_rebuild_vectorstore` and the `/rag/build-index`
route) -/

/-- The `RAGProcessor` state touched by a rebuild, plus the persisted artifact
on disk. -/
structure ProcState where
  documents : List LawChunk
  vectorstore : Option (List (Vec × LawChunk))
  disk : Option SavedArtifact

/-- `RAGProcessor.force_rebuild_vectorstore`, with ingestion's chunk list as
input: sets `self.documents`, returns `False` when it is empty (before any
build or save), otherwise builds, saves to disk and returns `True`. -/
def force_rebuild_vectorstore (enc : String → Vec) (ingested : List LawChunk)
    (st : ProcState) : Bool × ProcState :=
  let st1 := { st with documents := ingested }
  if ingested.isEmpty then (false, st1)
  else
    let vs := build_vectorstore enc ingested
    (true, { st1 with vectorstore := some vs, disk := some (save_vectorstore vs) })

/-- The `/rag/build-index` response. -/
structure RAGBuildIndexResponse where
  success : Bool
  document_count : Nat
deriving DecidableEq

/-- The `build_vectorstore_index` route handler: run the rebuild, then report
`len(processor.documents) if processor.documents else 0`. -/
def build_vectorstore_index (enc : String → Vec) (ingested : List LawChunk)
    (st : ProcState) : RAGBuildIndexResponse × ProcState :=
  let r := force_rebuild_vectorstore enc ingested st
  let cnt := if r.2.documents.isEmpty then 0 else r.2.documents.length
  (⟨r.1, cnt⟩, r.2)

/-! ## Concrete witnesses -/

/-- A concrete chunk. -/
def wChunk : LawChunk :=
  { page_content := "noi dung dieu luat", source_file := "f",
    chapter_title := "Chuong I", article_title := "Dieu 1",
    source := "f: Chuong I, Dieu 1" }

/-- A concrete encoder. -/
def wEnc : String → Vec := fun _ => [1]

/-- An environment in which the chain fails, retrieval finds one chunk, and
the direct model call raises. -/
def wEnvErr : GenEnv :=
  { chain := Except.error "chain failed", enc := wEnc, entries := [([1], wChunk)],
    topK := 5, searchFails := false, ollama := OllamaOutcome.exn "connection refused" }

/-- An environment in which the chain fails and retrieval finds nothing. -/
def wEnvEmpty : GenEnv :=
  { chain := Except.error "chain failed", enc := wEnc, entries := [],
    topK := 5, searchFails := false, ollama := OllamaOutcome.exn "connection refused" }

/-- An environment in which the primary chain succeeds with one source. -/
def wEnvOk : GenEnv :=
  { chain := Except.ok ("tra loi", [wChunk]), enc := wEnc, entries := [],
    topK := 5, searchFails := false, ollama := OllamaOutcome.exn "x" }

/-- A concrete persisted artifact and processor state. -/
def wState : ProcState :=
  { documents := [wChunk], vectorstore := none, disk := some ⟨[[1]], [wChunk]⟩ }

/-! ## Properties -/

theorem dropWhile_cons_head {p : Char → Bool} (l : List Char) (d : Char) (r : List Char)
    (h : l.dropWhile p = d :: r) : p d = false := by
  have := List.head?_dropWhile_not p l
  rw [h] at this
  exact this

theorem collapseWS_cons_space (c : Char) (l : List Char) (h : isPySpace c = true) :
    collapseWS (c :: l) = ' ' :: collapseWS (l.dropWhile isPySpace) := by
  rw [collapseWS]
  simp [h]

theorem collapseWS_cons_nonspace (c : Char) (l : List Char) (h : isPySpace c = false) :
    collapseWS (c :: l) = c :: collapseWS l := by
  rw [collapseWS]
  simp [h]

theorem collapseWS_space_mem :
    ∀ l : List Char, ∀ c ∈ collapseWS l, isPySpace c = true → c = ' ' := by
  intro l
  induction l using collapseWS.induct with
  | case1 => intro c hc; simp [collapseWS] at hc
  | case2 c rest h ih =>
    intro d hd hsp
    rw [collapseWS_cons_space c rest h] at hd
    rcases List.mem_cons.1 hd with h1 | h1
    · exact h1
    · exact ih d h1 hsp
  | case3 c rest h ih =>
    intro d hd hsp
    rw [collapseWS_cons_nonspace c rest (by simpa using h)] at hd
    rcases List.mem_cons.1 hd with h1 | h1
    · subst h1; simp [hsp] at h
    · exact ih d h1 hsp

theorem collapseWS_chain : ∀ l : List Char, List.Chain' noTwoWS (collapseWS l) := by
  intro l
  induction l using collapseWS.induct with
  | case1 => simp [collapseWS]
  | case2 c rest h ih =>
    rw [collapseWS_cons_space c rest h]
    refine List.chain'_cons'.2 ⟨?_, ih⟩
    intro y hy
    cases hrest : rest.dropWhile isPySpace with
    | nil => rw [hrest] at hy; simp [collapseWS] at hy
    | cons d r =>
      have hd : isPySpace d = false := dropWhile_cons_head rest d r hrest
      rw [hrest, collapseWS_cons_nonspace d r hd] at hy
      simp at hy
      subst hy
      exact fun hcontra => by simp [hd] at hcontra
  | case3 c rest h ih =>
    rw [collapseWS_cons_nonspace c rest (by simpa using h)]
    refine List.chain'_cons'.2 ⟨?_, ih⟩
    intro y _
    exact fun hcontra => h hcontra.1

theorem collapseWS_id :
    ∀ l : List Char, (∀ c ∈ l, isPySpace c = true → c = ' ') →
      List.Chain' noTwoWS l → collapseWS l = l := by
  intro l
  induction l with
  | nil => intro _ _; simp [collapseWS]
  | cons c t ih =>
    intro hsp hch
    by_cases hc : isPySpace c = true
    · have hcsp : c = ' ' := hsp c (List.mem_cons_self c t) hc
      rw [collapseWS_cons_space c t hc]
      have hdrop : t.dropWhile isPySpace = t := by
        cases t with
        | nil => rfl
        | cons d r =>
          have hd : isPySpace d = false := by
            have := (List.chain'_cons'.1 hch).1 d (by simp)
            by_contra hcon
            exact this ⟨hc, by simpa using hcon⟩
          simp [List.dropWhile_cons, hd]
      rw [hdrop, ih (fun x hx => hsp x (List.mem_cons_of_mem c hx)) (List.chain'_cons'.1 hch).2,
        hcsp]
    · rw [collapseWS_cons_nonspace c t (by simpa using hc)]
      rw [ih (fun x hx => hsp x (List.mem_cons_of_mem c hx)) (List.chain'_cons'.1 hch).2]

theorem takeWhile_dropWhile_nil (p : Char → Bool) (l : List Char) :
    (l.dropWhile p).takeWhile p = [] := by
  cases h : l.dropWhile p with
  | nil => rfl
  | cons d r =>
    have hd := dropWhile_cons_head l d r h
    simp [List.takeWhile_cons, hd]

theorem stripWS_takeWhile_rev (l : List Char) :
    ((stripWS l).reverse).takeWhile isPySpace = [] := by
  unfold stripWS
  rw [List.reverse_reverse]
  exact takeWhile_dropWhile_nil _ _

theorem stripWS_takeWhile (l : List Char) : (stripWS l).takeWhile isPySpace = [] := by
  cases hg : stripWS l with
  | nil => simp
  | cons c r =>
    have hsplit := List.takeWhile_append_dropWhile (p := isPySpace)
      (l := (l.dropWhile isPySpace).reverse)
    have hrev := congrArg List.reverse hsplit
    rw [List.reverse_append] at hrev
    have hds : ((l.dropWhile isPySpace).reverse.dropWhile isPySpace).reverse = stripWS l := by
      unfold stripWS; rfl
    rw [hds, hg, List.reverse_reverse] at hrev
    have hf : l.dropWhile isPySpace =
        c :: (r ++ ((l.dropWhile isPySpace).reverse.takeWhile isPySpace).reverse) := hrev.symm
    have hc := dropWhile_cons_head l c _ hf
    simp [List.takeWhile_cons, hc]

theorem dropWhile_eq_self_of_takeWhile_nil {p : Char → Bool} {l : List Char}
    (h : l.takeWhile p = []) : l.dropWhile p = l := by
  cases l with
  | nil => rfl
  | cons a t =>
    rw [List.takeWhile_cons] at h
    by_cases hp : p a
    · simp [hp] at h
    · simp [List.dropWhile_cons, hp]

theorem stripWS_id (l : List Char) (h1 : l.takeWhile isPySpace = [])
    (h2 : l.reverse.takeWhile isPySpace = []) : stripWS l = l := by
  unfold stripWS
  rw [dropWhile_eq_self_of_takeWhile_nil h1, dropWhile_eq_self_of_takeWhile_nil h2,
    List.reverse_reverse]

theorem stripWS_subset (l : List Char) : stripWS l ⊆ l := by
  intro c hc
  unfold stripWS at hc
  rw [List.mem_reverse] at hc
  have h1 := List.dropWhile_subset (l := (l.dropWhile isPySpace).reverse) isPySpace hc
  rw [List.mem_reverse] at h1
  exact List.dropWhile_subset isPySpace h1

theorem replaceCRLF_id : ∀ l : List Char, '\r' ∉ l → replaceCRLF l = l := by
  intro l
  induction l using replaceCRLF.induct with
  | case1 => intro _; rfl
  | case2 c => intro _; rfl
  | case3 c₁ c₂ rest hif ih =>
    intro hmem
    exact absurd (by simp [hif.1]) hmem
  | case4 c₁ c₂ rest hif ih =>
    intro hmem
    rw [replaceCRLF]
    simp only [if_neg hif]
    rw [ih fun h => hmem (List.mem_cons_of_mem c₁ h)]

theorem chain_no_crlf (l : List Char) (h : '\r' ∉ l) :
    List.Chain' (fun a b => ¬(a = '\r' ∧ b = '\n')) l := by
  induction l with
  | nil => simp
  | cons c t ih =>
    refine List.chain'_cons'.2 ⟨?_, ih fun hm => h (List.mem_cons_of_mem c hm)⟩
    intro y _ hcon
    exact h (hcon.1 ▸ List.mem_cons_self c t)

theorem stripWS_chain_preserve (l : List Char) (h : List.Chain' noTwoWS l) :
    List.Chain' noTwoWS (stripWS l) := by
  have hf : List.Chain' noTwoWS (l.dropWhile isPySpace) :=
    List.Chain'.suffix h (List.dropWhile_suffix _)
  have h1 : (l.dropWhile isPySpace).reverse.dropWhile isPySpace <:+
      (l.dropWhile isPySpace).reverse := List.dropWhile_suffix _
  have h2 : stripWS l <+: (l.dropWhile isPySpace).reverse.reverse :=
    List.reverse_prefix.2 h1
  rw [List.reverse_reverse] at h2
  exact List.Chain'.prefix hf h2

theorem clean_text_space_mem (s : String) :
    ∀ c ∈ (clean_text s).data, isPySpace c = true → c = ' ' := by
  intro c hc hsp
  exact collapseWS_space_mem (replaceCRLF s.data) c
    (stripWS_subset (collapseWS (replaceCRLF s.data)) hc) hsp

theorem clean_text_chain (s : String) : List.Chain' noTwoWS (clean_text s).data :=
  stripWS_chain_preserve (collapseWS (replaceCRLF s.data))
    (collapseWS_chain (replaceCRLF s.data))

theorem clean_text_no_cr (s : String) : '\r' ∉ (clean_text s).data := by
  intro hmem
  have h := clean_text_space_mem s '\r' hmem (by decide)
  exact absurd h (by decide)

/-- Claim C10: `clean_text` is idempotent; its output contains no
carriage-return/newline pair and no two consecutive whitespace characters, and
has no leading or trailing whitespace. -/
theorem clean_text_idempotent_normal (s : String) :
    clean_text (clean_text s) = clean_text s ∧
    List.Chain' (fun a b => ¬(a = '\r' ∧ b = '\n')) (clean_text s).data ∧
    List.Chain' noTwoWS (clean_text s).data ∧
    (clean_text s).data.takeWhile isPySpace = [] ∧
    ((clean_text s).data.reverse).takeWhile isPySpace = [] := by
  refine ⟨?_, chain_no_crlf _ (clean_text_no_cr s), clean_text_chain s,
    stripWS_takeWhile _, stripWS_takeWhile_rev _⟩
  show (⟨stripWS (collapseWS (replaceCRLF (clean_text s).data))⟩ : String) = clean_text s
  have h1 : ((clean_text s).data).takeWhile isPySpace = [] := stripWS_takeWhile _
  have h2 : (((clean_text s).data).reverse).takeWhile isPySpace = [] := stripWS_takeWhile_rev _
  rw [replaceCRLF_id _ (clean_text_no_cr s),
    collapseWS_id _ (clean_text_space_mem s) (clean_text_chain s),
    stripWS_id (clean_text s).data h1 h2]

theorem flatten_chunksOf (n : Nat) (hn : n ≠ 0) :
    ∀ l : List α, (chunksOf n l).flatten = l := by
  intro l
  induction l using chunksOf.induct n with
  | case1 => simp [chunksOf]
  | case2 a rest h =>
    exact absurd h hn
  | case3 a rest h ih =>
    rw [chunksOf]
    simp only [dif_neg h, List.flatten_cons, ih]
    exact List.take_append_drop n (a :: rest)

theorem foldl_append_eq_join (f : β → List α) :
    ∀ (L : List β) (acc : List α),
      L.foldl (fun a b => a ++ f b) acc = acc ++ (L.map f).flatten := by
  intro L
  induction L with
  | nil => intro acc; simp
  | cons b t ih =>
    intro acc
    simp only [List.foldl_cons, List.map_cons, List.flatten_cons, ih, List.append_assoc]

/-- Claim C6: `embed_documents` processes the input in sequential batches of
fixed size 8, its result is the concatenation of the per-batch encodings, and
it returns exactly one vector per input text, in input order. -/
theorem embed_documents_batched (enc : String → Vec) (texts : List String) :
    embed_documents enc texts = ((chunksOf 8 texts).map (fun b => b.map enc)).flatten ∧
    embed_documents enc texts = texts.map enc ∧
    (embed_documents enc texts).length = texts.length := by
  have hfold : embed_documents enc texts =
      ((chunksOf 8 texts).map (fun b => b.map enc)).flatten := by
    unfold embed_documents
    rw [foldl_append_eq_join]
    rfl
  have hmap : embed_documents enc texts = texts.map enc := by
    rw [hfold, ← List.map_flatten, flatten_chunksOf 8 (by decide) texts]
  exact ⟨hfold, hmap, by rw [hmap, List.length_map]⟩

/-- Claim C5: in the instruction-tuned variant, `embed_documents` encodes each
text exactly as given while `embed_query` encodes the fixed task-instruction
prefix concatenated with the text; for no text do the two operations encode
the same input. -/
theorem embed_query_instruction_asymmetry (enc : String → Vec) (t : String) :
    embed_documents enc [t] = [enc t] ∧
    embed_query enc t = enc (instructedQuery t) ∧
    instructedQuery t ≠ t := by
  refine ⟨(embed_documents_batched enc [t]).2.1, rfl, ?_⟩
  intro h
  have hlen := congrArg String.length h
  rw [instructedQuery, String.length_append, String.length_append,
    String.length_append] at hlen
  have hq : ("\nQuery: " : String).length = 8 := by decide
  rw [hq] at hlen
  omega

theorem load_and_chunk_eq_flatten (split : String → List String) :
    ∀ (files : List CorpusFile) (acc : List LawChunk),
      files.foldl (fun acc f =>
        match f.2 with
        | Except.error _ => acc
        | Except.ok law => acc ++ processFile split f.1 law) acc =
      acc ++ (files.map (fileContribution split)).flatten := by
  intro files
  induction files with
  | nil => intro acc; simp
  | cons f t ih =>
    intro acc
    rcases f with ⟨nm, res⟩
    cases res with
    | error e => simp only [List.foldl_cons, List.map_cons, List.flatten_cons, ih,
        fileContribution, List.nil_append]
    | ok law => simp only [List.foldl_cons, List.map_cons, List.flatten_cons, ih,
        fileContribution, List.append_assoc]

/-- Claim C8: a malformed or unreadable corpus file contributes nothing and is
skipped, and `load_and_chunk_data` still returns exactly the chunks of every
parseable file, in order; a bad file never aborts the remaining corpus. -/
theorem load_and_chunk_skips_bad_files (split : String → List String)
    (files pre post : List CorpusFile) (nm e : String) :
    load_and_chunk_data split files =
      (files.filterMap fun f =>
        match f.2 with
        | Except.ok law => some (processFile split f.1 law)
        | Except.error _ => none).flatten ∧
    load_and_chunk_data split (pre ++ (nm, Except.error e) :: post) =
      load_and_chunk_data split (pre ++ post) := by
  constructor
  · rw [load_and_chunk_data, load_and_chunk_eq_flatten, List.nil_append]
    induction files with
    | nil => rfl
    | cons f t ih =>
      rcases f with ⟨nm', res⟩
      cases res with
      | error e' => simpa [fileContribution, List.filterMap_cons, List.flatten_cons] using ih
      | ok law => simp [fileContribution, List.filterMap_cons, List.flatten_cons, ih]
  · rw [load_and_chunk_data, load_and_chunk_eq_flatten,
      load_and_chunk_data, load_and_chunk_eq_flatten]
    simp [fileContribution, List.map_append, List.flatten_append]

theorem load_save_id (idx : List (Vec × LawChunk)) :
    load_vectorstore (save_vectorstore idx) = idx := by
  induction idx with
  | nil => rfl
  | cons e t ih =>
    simp only [save_vectorstore, load_vectorstore, List.map_cons, List.zip_cons_cons]
    rw [show (t.map Prod.fst).zip (t.map Prod.snd) = t from ih]

/-- Claim C4: `search` returns at most `k` results, ranked by non-decreasing
distance to the query, and the empty index yields the empty list rather than
an error. -/
theorem search_topk_sorted (enc : String → Vec) (entries : List (Vec × LawChunk))
    (query : String) (k : Nat) :
    (search enc entries query k).length ≤ k ∧
    List.Chain' (distLe (embed_query enc query)) (searchRanked enc entries query k) ∧
    search enc [] query k = [] := by
  refine ⟨?_, ?_, ?_⟩
  · rw [search, List.length_map, searchRanked]
    exact (List.length_take_le _ _)
  · have hsorted : List.Sorted (distLe (embed_query enc query))
        (List.insertionSort (distLe (embed_query enc query)) entries) :=
      List.sorted_insertionSort _ _
    exact ((hsorted.sublist (List.take_sublist _ _))).chain'
  · simp [search, searchRanked, List.insertionSort]

/-- Claim C2: saving a built index and loading it back yields an index with
identical contents, hence identical search results (same chunks, same order)
for every query and `k`. -/
theorem save_load_roundtrip_search (enc : String → Vec) (chunks : List LawChunk)
    (query : String) (k : Nat) :
    load_vectorstore (save_vectorstore (build_vectorstore enc chunks)) =
      build_vectorstore enc chunks ∧
    search enc (load_vectorstore (save_vectorstore (build_vectorstore enc chunks))) query k =
      search enc (build_vectorstore enc chunks) query k := by
  refine ⟨load_save_id _, ?_⟩
  rw [load_save_id]

/-- Claim C1: `generate_answer` always returns its (answer, sources) pair —
the ok-value of its body when no exception escapes, and the fixed apology
answer with empty sources whenever an exception escapes both the primary and
the fallback path. -/
theorem generate_answer_never_raises (env : GenEnv) (q : String) :
    (∀ e, generate_answer_body env q = Except.error e →
      generate_answer env q = { answer := apologyMsg, sources := [], llmCalled := true }) ∧
    (∀ r, generate_answer_body env q = Except.ok r → generate_answer env q = r) := by
  constructor
  · intro e he
    rw [generate_answer, he]
  · intro r hr
    rw [generate_answer, hr]

/-- Claim C7: when the primary path has failed and the fallback's direct
retrieval returns no results, `generate_answer` returns the fixed
no-relevant-information answer with empty sources and no model call is made. -/
theorem generate_answer_fallback_empty_search (env : GenEnv) (q : String) (e : String)
    (hchain : env.chain = Except.error e)
    (hempty : searchResultsOf env q = []) :
    generate_answer env q = { answer := noInfoMsg, sources := [], llmCalled := false } := by
  rw [generate_answer, generate_answer_body, hchain]
  rw [show fallbackPath env q = Except.ok ⟨noInfoMsg, [], false⟩ from by
    rw [fallbackPath, hempty]; rfl]

theorem search_distance_none (enc : String → Vec) (entries : List (Vec × LawChunk))
    (query : String) (k : Nat) :
    ∀ s ∈ search enc entries query k, s.distance = none := by
  intro s hs
  rw [search] at hs
  rcases List.mem_map.1 hs with ⟨e, _, he⟩
  rw [← he]

theorem generate_answer_chain_ok (env : GenEnv) (q : String) (ans : String)
    (docs : List LawChunk) (h : env.chain = Except.ok (ans, docs)) :
    generate_answer env q = ⟨ans, docs.map docToSource, true⟩ := by
  rw [generate_answer, generate_answer_body, h]

theorem generate_answer_chain_error (env : GenEnv) (q : String) (e : String)
    (h : env.chain = Except.error e) :
    generate_answer env q =
      (match fallbackPath env q with
       | Except.ok r => r
       | Except.error _ => ⟨apologyMsg, [], true⟩) := by
  rw [generate_answer, generate_answer_body, h]

theorem fallbackPath_empty (env : GenEnv) (q : String)
    (h : (searchResultsOf env q).isEmpty = true) :
    fallbackPath env q = Except.ok ⟨noInfoMsg, [], false⟩ := by
  simp [fallbackPath, h]

theorem fallbackPath_exn (env : GenEnv) (q : String) (m : String)
    (h1 : (searchResultsOf env q).isEmpty = false)
    (h2 : env.ollama = OllamaOutcome.exn m) :
    fallbackPath env q = Except.error m := by
  simp [fallbackPath, h1, h2]

theorem fallbackPath_bad_status (env : GenEnv) (q : String) (status : Nat)
    (j : Except String String) (h1 : (searchResultsOf env q).isEmpty = false)
    (h2 : env.ollama = OllamaOutcome.resp status j) (h3 : status ≠ 200) :
    fallbackPath env q = Except.ok ⟨apologyMsg, [], true⟩ := by
  simp [fallbackPath, h1, h2, h3]

theorem fallbackPath_json_error (env : GenEnv) (q : String) (m : String)
    (h1 : (searchResultsOf env q).isEmpty = false)
    (h2 : env.ollama = OllamaOutcome.resp 200 (Except.error m)) :
    fallbackPath env q = Except.error m := by
  simp [fallbackPath, h1, h2]

theorem fallbackPath_llm_ok (env : GenEnv) (q : String) (ans : String)
    (h1 : (searchResultsOf env q).isEmpty = false)
    (h2 : env.ollama = OllamaOutcome.resp 200 (Except.ok ans)) :
    fallbackPath env q = Except.ok ⟨ans, searchResultsOf env q, true⟩ := by
  simp [fallbackPath, h1, h2]

theorem generate_answer_sources_distance_none (env : GenEnv) (q : String) :
    ∀ s ∈ (generate_answer env q).sources, s.distance = none := by
  intro s hs
  cases hch : env.chain with
  | ok p =>
    rcases p with ⟨ans, docs⟩
    rw [generate_answer_chain_ok env q ans docs hch] at hs
    rcases List.mem_map.1 hs with ⟨d, _, hd⟩
    rw [← hd]
    rfl
  | error e =>
    rw [generate_answer_chain_error env q e hch] at hs
    by_cases hres : (searchResultsOf env q).isEmpty
    · rw [fallbackPath_empty env q hres] at hs
      simp at hs
    · rw [Bool.not_eq_true] at hres
      cases holl : env.ollama with
      | exn m =>
        rw [fallbackPath_exn env q m hres holl] at hs
        simp at hs
      | resp status jsonResponse =>
        by_cases hst : status = 200
        · subst hst
          cases hj : jsonResponse with
          | error m =>
            rw [hj] at holl
            rw [fallbackPath_json_error env q m hres holl] at hs
            simp at hs
          | ok answer =>
            rw [hj] at holl
            rw [fallbackPath_llm_ok env q answer hres holl] at hs
            simp only [] at hs
            rw [searchResultsOf] at hs
            by_cases hsf : env.searchFails
            · rw [if_pos hsf] at hs
              simp at hs
            · rw [if_neg hsf] at hs
              exact search_distance_none env.enc env.entries q env.topK s hs
        · rw [fallbackPath_bad_status env q status jsonResponse hres holl hst] at hs
          simp at hs

/-- Claim C9: every source item produced by `search` and by `generate_answer`
(primary and fallback path alike) carries no `distance` entry, so the
`distance` the `/rag/chat` route exposes is `None` for every source on every
path. -/
theorem distance_always_absent (env : GenEnv) (q : String) (enc : String → Vec)
    (entries : List (Vec × LawChunk)) (query : String) (k : Nat) :
    (∀ s ∈ search enc entries query k, s.distance = none) ∧
    (∀ s ∈ (generate_answer env q).sources, s.distance = none) ∧
    (∀ item ∈ formatSources (generate_answer env q).sources, item.distance = none) := by
  refine ⟨search_distance_none enc entries query k,
    generate_answer_sources_distance_none env q, ?_⟩
  intro item hitem
  rcases List.mem_map.1 hitem with ⟨s, hsmem, hs⟩
  rw [← hs]
  exact generate_answer_sources_distance_none env q s hsmem

/-- Claim C3: when ingestion yields zero chunks, `force_rebuild_vectorstore`
returns `False`, the route reports `success=false` with `document_count=0`,
and the persisted artifact on disk is untouched (no save happens). -/
theorem force_rebuild_empty_corpus (enc : String → Vec) (ingested : List LawChunk)
    (st : ProcState) (h : ingested = []) :
    (force_rebuild_vectorstore enc ingested st).1 = false ∧
    (build_vectorstore_index enc ingested st).1 =
      { success := false, document_count := 0 } ∧
    (force_rebuild_vectorstore enc ingested st).2.disk = st.disk := by
  subst h
  refine ⟨rfl, rfl, rfl⟩

/-- Witness for the C1 theorem at `wEnvErr`: the body raises and the call
still returns the apology pair. -/
theorem generate_answer_never_raises_witness :
    generate_answer_body wEnvErr "cau hoi" = Except.error "connection refused" ∧
    generate_answer wEnvErr "cau hoi" =
      { answer := apologyMsg, sources := [], llmCalled := true } :=
  ⟨by decide,
    (generate_answer_never_raises wEnvErr "cau hoi").1 "connection refused" (by decide)⟩

/-- Witness for the C7 theorem at `wEnvEmpty`. -/
theorem generate_answer_fallback_empty_search_witness :
    wEnvEmpty.chain = Except.error "chain failed" ∧
    searchResultsOf wEnvEmpty "cau hoi" = [] ∧
    generate_answer wEnvEmpty "cau hoi" =
      { answer := noInfoMsg, sources := [], llmCalled := false } :=
  ⟨rfl, by decide,
    generate_answer_fallback_empty_search wEnvEmpty "cau hoi" "chain failed" rfl (by decide)⟩

/-- Witness for the C9 theorem at `wEnvOk`. -/
theorem distance_always_absent_witness :
    docToSource wChunk ∈ (generate_answer wEnvOk "cau hoi").sources ∧
    (docToSource wChunk).distance = none :=
  ⟨by decide,
    (distance_always_absent wEnvOk "cau hoi" wEnc [] "q" 5).2.1
      (docToSource wChunk) (by decide)⟩

/-- Witness for the C3 theorem at `wState` with zero ingested chunks. -/
theorem force_rebuild_empty_corpus_witness :
    (force_rebuild_vectorstore wEnc [] wState).1 = false ∧
    (build_vectorstore_index wEnc [] wState).1 =
      { success := false, document_count := 0 } ∧
    (force_rebuild_vectorstore wEnc [] wState).2.disk = wState.disk :=
  force_rebuild_empty_corpus wEnc [] wState rfl

end RAG

